import Mathlib

/-!
Verification development for the real-estate daily-digest feed pipeline
(`src/dataSources/rss-feed.js`, `src/dataSources/realestate-*.js`,
`src/dataFetchers.js`).

Modelling conventions (shallow embedding of the JavaScript source):

* JS strings are modelled as `List Char` (Unicode scalar values).  UTF-16
  surrogate-pair details are irrelevant to every statement proved here.
* JS `undefined`/`null` are modelled with `Option`.  An empty string is
  falsy in JS, so `a || b` on strings is `jsOr` below.
* `new Date(s)` is environment-defined string parsing; it is modelled by an
  oracle parameter `d : List Char → Option Int` (`none` = Invalid Date,
  `some t` = timestamp in milliseconds).  `new Date()` (the current clock)
  is an explicit parameter `now : Int`.  `Date.prototype.toISOString` throws
  a `RangeError` on an Invalid Date and is otherwise an injective rendering
  of the timestamp, inverted by a later re-parse; items therefore carry the
  timestamp itself rather than its ISO rendering, and the throw is modelled
  by `Except`.
* The network is an oracle: a function from the request to the response.
  Fetch functions additionally return the list of requests they issued, so
  "no network call was made" is expressible.  `console.*` logging, random
  user agents and `sleep` delays have no observable effect on the returned
  values and are not modelled, except that `fetchDataByCategory`'s warning
  for an unknown category is returned alongside its result.
* `Array.prototype.sort` with a consistent comparator is, per ECMA-262, the
  unique stable sort for that comparator; it is modelled by a stable
  insertion sort on the comparator key.
* Regular expressions in the source are literal-text patterns with the
  character classes `[^>]`, `["']`, `[^"']`, `[\s\S]*?` (lazy) and `[^>]*`
  (greedy, hence rightmost viable attribute); each is translated into an
  explicit scanning function with exactly those semantics, case-insensitive
  (ASCII) where the `i` flag is set.
-/

set_option maxRecDepth 8192

namespace RSSDaily

/-- Apostrophe character, kept out of literals. -/
def apos : Char := Char.ofNat 39

/-- ASCII lower-casing, the canonicalisation applied by the regex `i` flag
on the ASCII range (all patterns in the source are ASCII). -/
def lowerA (c : Char) : Char :=
  if 'A' ≤ c ∧ c ≤ 'Z' then Char.ofNat (c.toNat + 32) else c

/-- Case-insensitive character comparison. -/
def ciEq (a b : Char) : Bool := lowerA a == lowerA b

/-- Case-insensitive "the pattern starts here". -/
def ciStartsWith : List Char → List Char → Bool
  | [], _ => true
  | _ :: _, [] => false
  | a :: as, b :: bs => ciEq a b && ciStartsWith as bs

/-- Leftmost case-insensitive occurrence of `pat` in `s`: returns the text
before the occurrence and the suffix after it. -/
def findFirstCI (pat : List Char) : List Char → Option (List Char × List Char)
  | [] => if ciStartsWith pat [] then some ([], []) else none
  | c :: r =>
    if ciStartsWith pat (c :: r) then some ([], (c :: r).drop pat.length)
    else
      match findFirstCI pat r with
      | none => none
      | some (pre, suf) => some (c :: pre, suf)

/-- JS `String.prototype.trim` (whitespace at both ends removed). -/
def jsTrim (s : List Char) : List Char :=
  ((s.dropWhile Char.isWhitespace).reverse.dropWhile Char.isWhitespace).reverse

/-- JS `a || b` on strings: the empty string is falsy. -/
def jsOr (a b : List Char) : List Char := if a.isEmpty then b else a

/-- JS `env.X || dflt` where `env.X` may be `undefined`. -/
def jsOrOpt (a : Option (List Char)) (dflt : List Char) : List Char :=
  match a with
  | none => dflt
  | some s => jsOr s dflt

/-- One global (case-sensitive) literal replacement pass, as performed by
each `.replace(/pat/g, rep)` step of `decodeHTMLEntities`; the replacement
text is not rescanned. -/
def replaceAllAux (pat rep : List Char) : Nat → List Char → List Char
  | 0, s => s
  | fuel + 1, s =>
    if pat.isPrefixOf s ∧ ¬ pat.isEmpty then
      rep ++ replaceAllAux pat rep fuel (s.drop pat.length)
    else
      match s with
      | [] => []
      | c :: r => c :: replaceAllAux pat rep fuel r

/-- Fuel wrapper for `replaceAllAux` (every step consumes ≥ 1 character). -/
def replaceAllStr (pat rep s : List Char) : List Char :=
  replaceAllAux pat rep (s.length + 1) s

/-- Decimal digit run to a number (for `&#(\d+);`). -/
def digitsToNat (ds : List Char) : Nat :=
  ds.foldl (fun acc c => 10 * acc + (c.toNat - 48)) 0

/-- JS `String.fromCharCode`: the argument is taken mod 2^16; a code unit
that is not a Unicode scalar value (lone surrogate) degrades to `'\0'` in
this model (no claim touches that range). -/
def jsFromCharCode (n : Nat) : Char := Char.ofNat (n % 65536)

/-- The `.replace(/&#(\d+);/g, (m, num) => String.fromCharCode(num))` pass. -/
def numEntityAux : Nat → List Char → List Char
  | 0, s => s
  | fuel + 1, s =>
    match s with
    | [] => []
    | '&' :: '#' :: r =>
      match r.takeWhile Char.isDigit, r.dropWhile Char.isDigit with
      | d :: ds, ';' :: r2 =>
        jsFromCharCode (digitsToNat (d :: ds)) :: numEntityAux fuel r2
      | _, _ => '&' :: numEntityAux fuel ('#' :: r)
    | c :: r => c :: numEntityAux fuel r

/-- `decodeHTMLEntities(text)` from the source: `if (!text) return ''`, then
six fixed entity replacements in source order, then numeric references. -/
def decodeHTMLEntities (s : List Char) : List Char :=
  if s.isEmpty then []
  else
    let s1 := replaceAllStr "&amp;".data "&".data s
    let s2 := replaceAllStr "&lt;".data "<".data s1
    let s3 := replaceAllStr "&gt;".data ">".data s2
    let s4 := replaceAllStr "&quot;".data "\"".data s3
    let s5 := replaceAllStr "&#39;".data [apos] s4
    let s6 := replaceAllStr "&nbsp;".data " ".data s5
    numEntityAux (s6.length + 1) s6

/-- Attempt of `<tag[^>]*>([\s\S]*?)</tag>` anchored at the current
position: literal `<tag` (ci), greedy non-`>` run, `>`, then the lazy
capture up to the first `</tag>` (ci). -/
def tryPlainAt (tag s : List Char) : Option (List Char) :=
  if ciStartsWith ('<' :: tag) s then
    match (s.drop (tag.length + 1)).dropWhile (fun c => c ≠ '>') with
    | '>' :: r3 =>
      match findFirstCI (('<' :: '/' :: tag) ++ ['>']) r3 with
      | some (inner, _) => some inner
      | none => none
    | _ => none
  else none

/-- Leftmost match of the plain-tag regex of `extractTag`. -/
def extractTagPlain (tag : List Char) : List Char → Option (List Char)
  | [] => none
  | c :: r =>
    match tryPlainAt tag (c :: r) with
    | some x => some x
    | none => extractTagPlain tag r

/-- Attempt of `<tag[^>]*><!\[CDATA\[([\s\S]*?)\]\]></tag>` anchored at the
current position. -/
def tryCDataAt (tag s : List Char) : Option (List Char) :=
  if ciStartsWith ('<' :: tag) s then
    match (s.drop (tag.length + 1)).dropWhile (fun c => c ≠ '>') with
    | '>' :: r3 =>
      if ciStartsWith "<![CDATA[".data r3 then
        match findFirstCI ("]]></".data ++ tag ++ ['>']) (r3.drop 9) with
        | some (inner, _) => some inner
        | none => none
      else none
    | _ => none
  else none

/-- Leftmost match of the CDATA regex of `extractTag`. -/
def extractTagCData (tag : List Char) : List Char → Option (List Char)
  | [] => none
  | c :: r =>
    match tryCDataAt tag (c :: r) with
    | some x => some x
    | none => extractTagCData tag r

/-- `extractTag(xml, tagName)` from the source: CDATA form first, then the
plain form, result trimmed; the empty string when neither matches. -/
def extractTag (xml tag : List Char) : List Char :=
  match extractTagCData tag xml with
  | some t => jsTrim t
  | none =>
    match extractTagPlain tag xml with
    | some t => jsTrim t
    | none => []

/-- A quote character, the `["']` class. -/
def isQuote (c : Char) : Bool := c == '"' || c == apos

/-- Attempt of `href=["']([^"']+)["']` anchored here: literal `href=` (ci),
a quote, a non-empty greedy non-quote capture, a closing quote. -/
def tryHrefAt (s : List Char) : Option (List Char) :=
  if ciStartsWith "href=".data s then
    match s.drop 5 with
    | q :: r =>
      if isQuote q then
        match r.takeWhile (fun c => ¬ isQuote c), r.dropWhile (fun c => ¬ isQuote c) with
        | cap :: caps, _ :: _ => some (cap :: caps)
        | _, _ => none
      else none
    | [] => none
  else none

/-- `[^>]*href=...` with the greedy `[^>]*`: the rightmost viable `href`
before the next `>` wins; earlier positions are the backtracking fallback. -/
def searchHrefG : List Char → Option (List Char)
  | [] => none
  | c :: r =>
    match (if c ≠ '>' then searchHrefG r else none) with
    | some cap => some cap
    | none => tryHrefAt (c :: r)

/-- Attempt of `rel=["']alternate["'][^>]*href=["']([^"']+)["']` anchored
here. -/
def tryRelAt (s : List Char) : Option (List Char) :=
  if ciStartsWith "rel=".data s then
    match s.drop 4 with
    | q :: r =>
      if isQuote q ∧ ciStartsWith "alternate".data r then
        match r.drop 9 with
        | q2 :: r2 => if isQuote q2 then searchHrefG r2 else none
        | [] => none
      else none
    | [] => none
  else none

/-- `[^>]*rel=...` with the greedy `[^>]*`: rightmost viable `rel=` (whose
continuation succeeds) wins. -/
def searchRelG : List Char → Option (List Char)
  | [] => none
  | c :: r =>
    match (if c ≠ '>' then searchRelG r else none) with
    | some cap => some cap
    | none => tryRelAt (c :: r)

/-- Leftmost start of `<link[^>]*rel=["']alternate["'][^>]*href=...`. -/
def extractAtomLinkAlt : List Char → Option (List Char)
  | [] => none
  | c :: r =>
    match (if ciStartsWith "<link".data (c :: r) then searchRelG ((c :: r).drop 5) else none) with
    | some cap => some cap
    | none => extractAtomLinkAlt r

/-- Leftmost start of `<link[^>]*href=["']([^"']+)["']`. -/
def extractAtomLinkAny : List Char → Option (List Char)
  | [] => none
  | c :: r =>
    match (if ciStartsWith "<link".data (c :: r) then searchHrefG ((c :: r).drop 5) else none) with
    | some cap => some cap
    | none => extractAtomLinkAny r

/-- `extractAtomLink(xml)` from the source: `rel="alternate"` link first,
then any `href`, else the empty string; captures are not trimmed. -/
def extractAtomLink (xml : List Char) : List Char :=
  match extractAtomLinkAlt xml with
  | some cap => cap
  | none =>
    match extractAtomLinkAny xml with
    | some cap => cap
    | none => []

/-- One step of the `regex.exec` loop over `/<open>([\s\S]*?)<\/open>/gi`:
find the next opening literal, then the nearest closing literal, capture
what is between, continue after the closing literal.  Fuel is the string
length (each step consumes at least the opening literal). -/
def scanBlocksAux (openT closeT : List Char) : Nat → List Char → List (List Char)
  | 0, _ => []
  | fuel + 1, s =>
    match findFirstCI openT s with
    | none => []
    | some (_, afterOpen) =>
      match findFirstCI closeT afterOpen with
      | none => []
      | some (inner, afterClose) => inner :: scanBlocksAux openT closeT fuel afterClose

/-- All block captures of the `exec` loop. -/
def scanBlocks (openT closeT xml : List Char) : List (List Char) :=
  scanBlocksAux openT closeT (xml.length + 1) xml

/-- A parsed article record pushed by `parseRSSFeed`.  `pubDate` holds the
timestamp whose ISO rendering the source stores. -/
structure FeedItem where
  title : List Char
  link : List Char
  description : List Char
  pubDate : Int
  author : List Char
deriving DecidableEq, Repr

/-- The date-parse oracle: `new Date(s)`, `none` meaning Invalid Date. -/
def DateParse : Type := List Char → Option Int

/-- The RSS loop's `const title`. -/
def rssTitleOf (b : List Char) : List Char := extractTag b "title".data

/-- The RSS loop's `const link = extractTag(itemXml, 'link') ||
extractTag(itemXml, 'guid')`. -/
def rssLinkOf (b : List Char) : List Char :=
  jsOr (extractTag b "link".data) (extractTag b "guid".data)

/-- The RSS loop's `const description` with its two fallbacks. -/
def rssDescOf (b : List Char) : List Char :=
  jsOr (extractTag b "description".data) (jsOr (extractTag b "content:encoded".data) [])

/-- The RSS loop's `const pubDate = extractTag(itemXml, 'pubDate') ||
extractTag(itemXml, 'dc:date')`. -/
def rssDateOf (b : List Char) : List Char :=
  jsOr (extractTag b "pubDate".data) (extractTag b "dc:date".data)

/-- The RSS loop's `const author` with its fallbacks. -/
def rssAuthorOf (b : List Char) : List Char :=
  jsOr (extractTag b "author".data) (jsOr (extractTag b "dc:creator".data) [])

/-- The Atom loop's `const title`. -/
def atomTitleOf (e : List Char) : List Char := extractTag e "title".data

/-- The Atom loop's `const summary` with its fallbacks. -/
def atomSummaryOf (e : List Char) : List Char :=
  jsOr (extractTag e "summary".data) (jsOr (extractTag e "content".data) [])

/-- The Atom loop's `const published = extractTag(entryXml, 'published') ||
extractTag(entryXml, 'updated')`. -/
def atomDateOf (e : List Char) : List Char :=
  jsOr (extractTag e "published".data) (extractTag e "updated".data)

/-- The Atom loop's `const author = extractTag(entryXml, 'name')`. -/
def atomAuthorOf (e : List Char) : List Char := extractTag e "name".data

/-- The body of the RSS 2.0 `while` loop of `parseRSSFeed`, applied to one
`<item>` block's inner XML: extract the fields, skip unless `title && link`,
and evaluate `pubDate ? new Date(pubDate).toISOString() :
new Date().toISOString()` — which throws (`.error`) when the date field is
present but `new Date` cannot parse it. -/
def rssBlockItem (d : DateParse) (now : Int) (b : List Char) :
    Except Unit (Option FeedItem) :=
  if (rssTitleOf b).isEmpty || (rssLinkOf b).isEmpty then .ok none
  else
    match (if (rssDateOf b).isEmpty then some now else d (rssDateOf b)) with
    | none => .error ()
    | some t =>
      .ok (some ⟨decodeHTMLEntities (rssTitleOf b), rssLinkOf b, rssDescOf b, t,
        decodeHTMLEntities (rssAuthorOf b)⟩)

/-- The body of the Atom `while` loop of `parseRSSFeed`, applied to one
`<entry>` block's inner XML. -/
def atomBlockItem (d : DateParse) (now : Int) (e : List Char) :
    Except Unit (Option FeedItem) :=
  if (atomTitleOf e).isEmpty || (extractAtomLink e).isEmpty then .ok none
  else
    match (if (atomDateOf e).isEmpty then some now else d (atomDateOf e)) with
    | none => .error ()
    | some t =>
      .ok (some ⟨decodeHTMLEntities (atomTitleOf e), extractAtomLink e, atomSummaryOf e, t,
        decodeHTMLEntities (jsOr (atomAuthorOf e) [])⟩)

/-- Sequential push loop: each block either throws (stopping everything),
is skipped, or contributes one item, in order. -/
def exceptFilterMap (f : α → Except Unit (Option β)) : List α → Except Unit (List β)
  | [] => .ok []
  | a :: as =>
    match f a with
    | .error e => .error e
    | .ok o =>
      match exceptFilterMap f as with
      | .error e => .error e
      | .ok rest =>
        match o with
        | none => .ok rest
        | some b => .ok (b :: rest)

/-- The `<item>` block captures of the RSS 2.0 `exec` loop. -/
def rssBlocks (xml : List Char) : List (List Char) :=
  scanBlocks "<item>".data "</item>".data xml

/-- The `<entry>` block captures of the Atom `exec` loop. -/
def atomBlocks (xml : List Char) : List (List Char) :=
  scanBlocks "<entry>".data "</entry>".data xml

/-- `parseRSSFeed(xmlText)` from the source: scan `<item>` blocks (RSS 2.0);
if that yields zero items, scan `<entry>` blocks (Atom). -/
def parseRSSFeed (d : DateParse) (now : Int) (xml : List Char) :
    Except Unit (List FeedItem) :=
  match exceptFilterMap (rssBlockItem d now) (rssBlocks xml) with
  | .error e => .error e
  | .ok items =>
    if items.isEmpty then
      exceptFilterMap (atomBlockItem d now) (atomBlocks xml)
    else .ok items

/-- JS `parseInt(s, 10)`: leading whitespace skipped, optional sign, then a
non-empty decimal digit run (parsing stops at the first non-digit);
`none` models `NaN`. -/
def jsParseIntNat (r : List Char) : Option Nat :=
  match r.takeWhile Char.isDigit with
  | [] => none
  | ds => some (digitsToNat ds)

/-- JS `parseInt(s, 10)` including the optional sign. -/
def jsParseInt (s : List Char) : Option Int :=
  match s.dropWhile Char.isWhitespace with
  | '-' :: r => (jsParseIntNat r).map (fun n => -(n : Int))
  | '+' :: r => (jsParseIntNat r).map (fun n => (n : Int))
  | r => (jsParseIntNat r).map (fun n => (n : Int))

/-- Modelled from the spec: `helpers.js` is imported by every data source
but is not under `src/`.  Per §8 and the glossary, `isDateWithinLastDays`
keeps exactly the items with `now - publishedAt <= N days`.  The date
argument arrives already parsed (`none` when `new Date` could not parse the
stored string); a `NaN` on either side makes the JS comparison false. -/
def isDateWithinLastDays (now : Int) (t : Option Int) (days : Option Int) : Bool :=
  match t, days with
  | some ts, some dd => now - ts ≤ dd * 86400000
  | _, _ => false

/-- Modelled from the spec: `helpers.js` is not under `src/`.  Per §4.3,
`stripHtml` strips HTML tags from content to build a plain-text excerpt:
every `<...>` run up to the next `>` is removed. -/
def stripHtmlAux : Nat → List Char → List Char
  | 0, s => s
  | fuel + 1, s =>
    match s with
    | [] => []
    | '<' :: r =>
      match r.dropWhile (fun c => c ≠ '>') with
      | '>' :: r2 => stripHtmlAux fuel r2
      | _ => '<' :: stripHtmlAux fuel r
    | c :: r => c :: stripHtmlAux fuel r

/-- Modelled from the spec: fuel wrapper for `stripHtmlAux`. -/
def stripHtml (s : List Char) : List Char := stripHtmlAux (s.length + 1) s

/-- 32-bit signed wrap-around, JS `| 0` / `&` coercion. -/
def toInt32 (n : Int) : Int := (n + 2 ^ 31) % 2 ^ 32 - 2 ^ 31

/-- One step of `generateItemId`'s rolling hash:
`hash = ((hash << 5) - hash) + charCode; hash = hash & hash`. -/
def hashStep (hash : Int) (c : Char) : Int :=
  toInt32 (toInt32 (hash * 32) - hash + (c.toNat : Int))

/-- Digit for `Number.prototype.toString(36)`. -/
def digit36 (n : Nat) : Char :=
  if n < 10 then Char.ofNat (48 + n) else Char.ofNat (87 + n)

/-- Base-36 rendering of a natural number (fuel recursion on quotients). -/
def toString36Aux : Nat → Nat → List Char
  | 0, _ => []
  | fuel + 1, n =>
    if n < 36 then [digit36 n]
    else toString36Aux fuel (n / 36) ++ [digit36 (n % 36)]

/-- `Math.abs(hash).toString(36)`. -/
def toString36 (n : Nat) : List Char := toString36Aux (n + 1) n

/-- `generateItemId(url)` from the source. -/
def generateItemId (url : List Char) : List Char :=
  toString36 (url.foldl hashStep 0).natAbs

/-- Stable descending insertion: a later element goes after every earlier
element with the same key, matching ECMA-262 stable `Array.prototype.sort`
under the comparator `(a, b) => date(b) - date(a)`. -/
def insertDesc (key : α → Int) (x : α) : List α → List α
  | [] => [x]
  | y :: ys => if key y ≤ key x then x :: y :: ys else y :: insertDesc key x ys

/-- Model of `arr.sort((a, b) => date(b) - date(a))`: for a consistent
comparator the ECMA-262 result is the unique stable descending permutation,
which stable insertion sort computes. -/
def jsSortByKeyDesc (key : α → Int) : List α → List α
  | [] => []
  | x :: xs => insertDesc key x (jsSortByKeyDesc key xs)

/-- An item of the RSS adapter after the `forEach` that adds `source` and
`id` (the source mutates the parsed items in place). -/
structure RSSItemT where
  title : List Char
  link : List Char
  description : List Char
  pubDate : Int
  author : List Char
  source : List Char
  id : List Char
deriving DecidableEq, Repr

/-- The value returned by `createRSSDataSource(...).fetch`: the skip path
returns a bare `{items: []}` (no `title` property), the normal path
`{title, items}`. -/
structure RSSRawPayload where
  title : Option (List Char)
  items : Option (List RSSItemT)
deriving DecidableEq, Repr

/-- An HTTP response for the RSS adapter's GET. -/
structure HttpResp where
  ok : Bool
  body : List Char
deriving DecidableEq, Repr

/-- Network oracle for the RSS adapter: URL to response; `.error` is a
transport error (rejected fetch). -/
def RSSNet : Type := List Char → Except Unit HttpResp

/-- `new URL(u).hostname`; `none` models the constructor throwing on an
invalid URL. -/
def HostOracle : Type := List Char → Option (List Char)

/-- Environment-variable oracle (`env[key]`; `none` is `undefined`). -/
def Env : Type := List Char → Option (List Char)

/-- `String.prototype.split(',')`. -/
def splitComma : List Char → List (List Char)
  | [] => [[]]
  | c :: r =>
    match splitComma r with
    | [] => [[]]
    | h :: t => if c = ',' then [] :: h :: t else (c :: h) :: t

/-- `rssUrls.split(',').map(url => url.trim()).filter(url => url)`. -/
def urlListOf (rssUrls : List Char) : List (List Char) :=
  ((splitComma rssUrls).map jsTrim).filter (fun u => ¬ u.isEmpty)

/-- `parseInt(env.RSS_FILTER_DAYS || '2', 10)`. -/
def rssFilterDays (env : Env) : Option Int :=
  jsParseInt (jsOrOpt (env "RSS_FILTER_DAYS".data) "2".data)

/-- Per-URL body of the RSS adapter's `for` loop (the whole body sits in a
`try`/`catch` that logs and continues, so a transport error, a non-OK
status, a `parseRSSFeed` throw, or a `new URL` throw all make the URL
contribute nothing). -/
def rssPerUrl (d : DateParse) (now : Int) (fd : Option Int) (net : RSSNet)
    (host : HostOracle) (url : List Char) : List RSSItemT :=
  match net url with
  | .error _ => []
  | .ok resp =>
    if ¬ resp.ok then []
    else
      match parseRSSFeed d now resp.body with
      | .error _ => []
      | .ok items =>
        let t := extractTag resp.body "title".data
        match (if t.isEmpty then host url else some t) with
        | none => []
        | some feedTitle =>
          (items.filter (fun it => isDateWithinLastDays now (some it.pubDate) fd)).map
            (fun it => ⟨it.title, it.link, it.description, it.pubDate, it.author,
              decodeHTMLEntities feedTitle, generateItemId it.link⟩)

/-- `allItems` accumulated over the URL list (`allItems.push(...filtered)`
in source order). -/
def rssCollect (d : DateParse) (now : Int) (fd : Option Int) (net : RSSNet)
    (host : HostOracle) (urls : List (List Char)) : List RSSItemT :=
  urls.foldl (fun acc u => acc ++ rssPerUrl d now fd net host u) []

/-- Parameters of `createRSSDataSource(sourceType, sourceName, envKeyUrl)`
(the emoji only feeds `generateHtml`). -/
structure RSSCfg where
  sourceType : List Char
  sourceName : List Char
  envKeyUrl : List Char
deriving DecidableEq, Repr

/-- `createRSSDataSource(...).fetch(env)`: first component is the list of
URLs actually requested (one GET per configured URL, failures included);
the skip path issues none. -/
def rssFetch (d : DateParse) (now : Int) (env : Env) (net : RSSNet)
    (host : HostOracle) (cfg : RSSCfg) : List (List Char) × RSSRawPayload :=
  match env cfg.envKeyUrl with
  | none => ([], ⟨none, some []⟩)
  | some rssUrls =>
    if rssUrls.isEmpty then ([], ⟨none, some []⟩)
    else
      (urlListOf rssUrls,
        ⟨some cfg.sourceName,
          some (jsSortByKeyDesc (fun it => it.pubDate)
            (rssCollect d now (rssFilterDays env) net host (urlListOf rssUrls)))⟩)

/-- The unified record built by `createRSSDataSource(...).transform`
(`details.content_html` is flattened into the field `content_html`). -/
structure UnifiedItemR where
  id : List Char
  type : List Char
  url : List Char
  title : List Char
  description : List Char
  published_date : Int
  authors : List Char
  source : List Char
  content_html : List Char
deriving DecidableEq, Repr

/-- `createRSSDataSource(...).transform(rawData, dataSourceType)`. -/
def rssTransform (sourceName : List Char) (rawData : Option RSSRawPayload)
    (dataSourceType : List Char) : List UnifiedItemR :=
  match rawData with
  | none => []
  | some p =>
    match p.items with
    | none => []
    | some l =>
      l.map (fun item =>
        ⟨item.id, dataSourceType, item.link, item.title,
          (stripHtml (jsOr item.description [])).take 500,
          item.pubDate,
          jsOr item.author "未知".data,
          jsOr item.source sourceName,
          jsOr item.description []⟩)

/-- A raw entry of the proprietary (Folo) API response. -/
structure FoloEntryInner where
  id : List Char
  url : List Char
  title : List Char
  content : List Char
  publishedAt : List Char
  author : List Char
deriving DecidableEq, Repr

/-- The `feeds` object attached to each entry. -/
structure FoloFeed where
  title : List Char
  url : List Char
deriving DecidableEq, Repr

/-- One element of `data.data`. -/
structure FoloEntry where
  entries : FoloEntryInner
  feeds : FoloFeed
deriving DecidableEq, Repr

/-- The observable part of the POST body (`view`/`withContent` constant):
`publishedAfter` is present only when the JS variable is truthy. -/
structure FoloReq where
  listId : List Char
  publishedAfter : Option (List Char)
deriving DecidableEq, Repr

/-- Outcome of one page request: transport error (rejected fetch or a
`json()` failure, both caught by the same `catch`), non-OK status, or a
parsed body whose `data` field may be absent. -/
inductive PageOutcome where
  | transportError
  | httpError
  | okResp (d : Option (List FoloEntry))
deriving DecidableEq, Repr

/-- Network oracle for the Folo adapters. -/
def FoloNet : Type := FoloReq → PageOutcome

/-- The item shape pushed by the Folo `fetch` loops (`feed_url` is present
only in the news adapter's mapping). -/
structure FoloRawItem where
  id : List Char
  url : List Char
  title : List Char
  content_html : List Char
  date_published : List Char
  authors : Option (List (List Char))
  source : List Char
  feed_url : Option (List Char)
deriving DecidableEq, Repr

/-- A Folo adapter's JSON-feed return value. -/
structure FoloRawPayload where
  version : List Char
  title : List Char
  description : List Char
  language : List Char
  items : Option (List FoloRawItem)
deriving DecidableEq, Repr

/-- The constants distinguishing the four structurally identical Folo
adapters (news/policy/market/city), per spec §9 a copy-pasted template. -/
structure FoloCfg where
  listKey : List Char
  pagesKey : List Char
  defaultPages : List Char
  title : List Char
  description : List Char
  withFeedUrl : Bool
deriving DecidableEq, Repr

/-- The JSON-feed skeleton every Folo `fetch` returns. -/
def foloSkeleton (cfg : FoloCfg) (items : List FoloRawItem) : FoloRawPayload :=
  ⟨"https://jsonfeed.org/version/1.1".data, cfg.title, cfg.description,
    "zh-cn".data, some items⟩

/-- The entry-to-item mapping inside the page loop. -/
def mkFoloRaw (cfg : FoloCfg) (e : FoloEntry) : FoloRawItem :=
  ⟨e.entries.id, e.entries.url, e.entries.title, e.entries.content,
    e.entries.publishedAt,
    some [jsOr e.entries.author e.feeds.title],
    e.feeds.title,
    if cfg.withFeedUrl then some e.feeds.url else none⟩

/-- `data.data.length > 0` after the `data && data.data` guards. -/
def pageGoodB : PageOutcome → Bool
  | .okResp (some (_ :: _)) => true
  | _ => false

/-- The filtered and mapped items one good page contributes. -/
def foloPageItems (d : DateParse) (now : Int) (fd : Option Int) (cfg : FoloCfg)
    (l : List FoloEntry) : List FoloRawItem :=
  (l.filter (fun e => isDateWithinLastDays now (d e.entries.publishedAt) fd)).map
    (mkFoloRaw cfg)

/-- Request body for the current `publishedAfter` state (the field is set
only when the JS value is truthy, i.e. a non-empty string). -/
def reqOf (listId : List Char) (pa : Option (List Char)) : FoloReq :=
  ⟨listId, match pa with
    | none => none
    | some s => if s.isEmpty then none else some s⟩

/-- The `for (let i = 0; i < fetchPages; i++)` loop of a Folo `fetch`:
breaks on transport error, non-OK status, or a page without entries,
keeping everything accumulated so far; a good page appends its filtered
items and advances `publishedAfter` to the page's last entry. -/
def foloLoop (net : FoloNet) (d : DateParse) (now : Int) (fd : Option Int)
    (cfg : FoloCfg) (listId : List Char) :
    Nat → Option (List Char) → List FoloRawItem → List FoloReq →
    List FoloReq × List FoloRawItem
  | 0, _, acc, tr => (tr, acc)
  | n + 1, pa, acc, tr =>
    let req := reqOf listId pa
    match net req with
    | .okResp (some (e :: es)) =>
      foloLoop net d now fd cfg listId n
        (some ((es.getLastD e).entries.publishedAt))
        (acc ++ foloPageItems d now fd cfg (e :: es))
        (tr ++ [req])
    | _ => (tr ++ [req], acc)

/-- `parseInt(env[PAGES_KEY] || default, 10)` as the loop bound (`i <
NaN` and `i < negative` both run zero iterations). -/
def foloPages (cfg : FoloCfg) (env : Env) : Nat :=
  match jsParseInt (jsOrOpt (env cfg.pagesKey) cfg.defaultPages) with
  | some n => n.toNat
  | none => 0

/-- `parseInt(env.FOLO_FILTER_DAYS || '1', 10)`. -/
def foloFilterDays (env : Env) : Option Int :=
  jsParseInt (jsOrOpt (env "FOLO_FILTER_DAYS".data) "1".data)

/-- A Folo adapter's `fetch(env, foloCookie)` (the cookie only adds a
header).  First component is the list of POST bodies issued. -/
def foloFetch (cfg : FoloCfg) (env : Env) (net : FoloNet) (d : DateParse)
    (now : Int) : List FoloReq × FoloRawPayload :=
  match env cfg.listKey with
  | none => ([], foloSkeleton cfg [])
  | some lid =>
    if lid.isEmpty then ([], foloSkeleton cfg [])
    else
      ((foloLoop net d now (foloFilterDays env) cfg lid (foloPages cfg env) none [] []).1,
        foloSkeleton cfg
          (foloLoop net d now (foloFilterDays env) cfg lid (foloPages cfg env) none [] []).2)

/-- The unified record built by a Folo adapter's `transform`
(`details.content_html` / `details.feed_url` flattened). -/
structure UnifiedItemF where
  id : List Char
  type : List Char
  url : List Char
  title : List Char
  description : List Char
  published_date : List Char
  authors : List Char
  source : List Char
  content_html : List Char
  feed_url : Option (List Char)
deriving DecidableEq, Repr

/-- `Array.prototype.flatten(', ')`. -/
def joinSep (sep : List Char) : List (List Char) → List Char
  | [] => []
  | [x] => x
  | x :: y :: rest => x ++ sep ++ joinSep sep (y :: rest)

/-- A Folo adapter's `transform(rawData, sourceType)`. -/
def foloTransform (cfg : FoloCfg) (rawData : Option FoloRawPayload)
    (sourceType : List Char) : List UnifiedItemF :=
  match rawData with
  | none => []
  | some p =>
    match p.items with
    | none => []
    | some l =>
      l.map (fun item =>
        ⟨item.id, sourceType, item.url, item.title,
          (stripHtml (jsOr item.content_html [])).take 500,
          item.date_published,
          (match item.authors with
            | some as => joinSep ", ".data as
            | none => "未知来源".data),
          jsOr item.source cfg.title,
          jsOr item.content_html [],
          if cfg.withFeedUrl then some (jsOrOpt item.feed_url []) else none⟩)

/-- `realestate-news.js` constants. -/
def RealEstateNewsCfg : FoloCfg :=
  ⟨"REALESTATE_NEWS_LIST_ID".data, "REALESTATE_NEWS_FETCH_PAGES".data,
    "2".data, "楼市资讯".data, "房地产行业综合新闻".data, true⟩

/-- `realestate-market.js` constants. -/
def RealEstateMarketCfg : FoloCfg :=
  ⟨"REALESTATE_MARKET_LIST_ID".data, "REALESTATE_MARKET_FETCH_PAGES".data,
    "1".data, "市场数据".data, "房地产市场行情数据".data, false⟩

/-- `realestate-policy.js` constants. -/
def RealEstatePolicyCfg : FoloCfg :=
  ⟨"REALESTATE_POLICY_LIST_ID".data, "REALESTATE_POLICY_FETCH_PAGES".data,
    "2".data, "政策动态".data, "房地产政策法规动态".data, false⟩

/-- `realestate-city.js` constants. -/
def RealEstateCityCfg : FoloCfg :=
  ⟨"REALESTATE_CITY_LIST_ID".data, "REALESTATE_CITY_FETCH_PAGES".data,
    "1".data, "城市聚焦".data, "重点城市楼市动态".data, false⟩

/-- `RealEstateNewsSource` from `rss-feed.js`. -/
def RealEstateNewsSource : RSSCfg :=
  ⟨"news".data, "楼市资讯".data, "RSS_REALESTATE_NEWS".data⟩

/-- `FinanceNewsSource` from `rss-feed.js`. -/
def FinanceNewsSource : RSSCfg :=
  ⟨"finance".data, "财经资讯".data, "RSS_FINANCE_NEWS".data⟩

/-- `PolicyNewsSource` from `rss-feed.js`. -/
def PolicyNewsSource : RSSCfg :=
  ⟨"policy".data, "政策动态".data, "RSS_POLICY_NEWS".data⟩

/-- `GeneralNewsSource` from `rss-feed.js`. -/
def GeneralNewsSource : RSSCfg :=
  ⟨"general".data, "综合资讯".data, "RSS_GENERAL_NEWS".data⟩

/-- One entry of the `dataSources` registry in `dataFetchers.js`. -/
structure RegEntry where
  name : List Char
  sources : List RSSCfg
deriving DecidableEq, Repr

/-- The outcome of `dataSources[category]` in JavaScript: an own property
(one of the four registered entries), a property inherited from
`Object.prototype` (a truthy function or object that is not a registry
entry and has no `.sources` array), or `undefined` (falsy). -/
inductive RegLookup where
  | entry (e : RegEntry)
  | protoFn
  | absent
deriving DecidableEq, Repr

/-- The property names of `Object.prototype` (ES2023): looking any of them
up on the registry object literal yields a truthy inherited value. -/
def objectProtoKeys : List (List Char) :=
  ["constructor".data, "hasOwnProperty".data, "isPrototypeOf".data,
    "propertyIsEnumerable".data, "toLocaleString".data, "toString".data,
    "valueOf".data, "__proto__".data, "__defineGetter__".data,
    "__defineSetter__".data, "__lookupGetter__".data, "__lookupSetter__".data]

/-- `dataSources[category]`: the registry is a plain object literal, so the
lookup falls through to the `Object.prototype` chain for its property
names before coming back `undefined`. -/
def dataSources (category : List Char) : RegLookup :=
  if category = "news".data then .entry ⟨"楼市资讯".data, [RealEstateNewsSource]⟩
  else if category = "finance".data then .entry ⟨"财经资讯".data, [FinanceNewsSource]⟩
  else if category = "policy".data then .entry ⟨"政策动态".data, [PolicyNewsSource]⟩
  else if category = "general".data then .entry ⟨"综合资讯".data, [GeneralNewsSource]⟩
  else if category ∈ objectProtoKeys then .protoFn
  else .absent

/-- The per-source accumulation loop of `fetchAndTransformDataForType`
(`allUnifiedDataForType = allUnifiedDataForType.concat(unified)`); in this
model the RSS adapters' `fetch`/`transform` are total, so the surrounding
`try`/`catch` never fires. -/
def aggCollect (d : DateParse) (now : Int) (env : Env) (net : RSSNet)
    (host : HostOracle) (sourceType : List Char) (entry : RegEntry) :
    List UnifiedItemR :=
  entry.sources.foldl
    (fun acc s =>
      acc ++ rssTransform s.sourceName (some (rssFetch d now env net host s).2) sourceType)
    []

/-- `fetchAndTransformDataForType(sourceType, env, foloCookie)`: reading
`.sources` of `undefined` throws a `TypeError` (`.error`); on a value
inherited from `Object.prototype` the lookup itself is truthy but
`.sources` is `undefined`, so the `!sources || !Array.isArray(sources)`
guard fires, logs `console.error` (logging unmodelled here) and returns the
empty array; on a registry entry the concatenated unified items are sorted
by `published_date` descending. -/
def fetchAndTransformDataForType (d : DateParse) (now : Int) (env : Env)
    (net : RSSNet) (host : HostOracle) (sourceType : List Char) :
    Except Unit (List UnifiedItemR) :=
  match dataSources sourceType with
  | .absent => .error ()
  | .protoFn => .ok []
  | .entry entry =>
    .ok (jsSortByKeyDesc (fun it => it.published_date)
      (aggCollect d now env net host sourceType entry))

/-- The `console.warn` text for an unknown category. -/
def warnUnknown (category : List Char) : List Char :=
  "Attempted to fetch data for unknown category: ".data ++ category

/-- `fetchDataByCategory(env, category, foloCookie)`: the result carries
the warnings logged at this level alongside the returned array.  The
`!dataSources[category]` guard is taken only for a falsy (`undefined`)
lookup; a truthy value inherited from `Object.prototype` proceeds into
`fetchAndTransformDataForType` without a warning. -/
def fetchDataByCategory (d : DateParse) (now : Int) (env : Env) (net : RSSNet)
    (host : HostOracle) (category : List Char) :
    Except Unit (List (List Char) × List UnifiedItemR) :=
  match dataSources category with
  | .absent => .ok ([warnUnknown category], [])
  | .protoFn =>
    (fetchAndTransformDataForType d now env net host category).map (fun l => ([], l))
  | .entry _ =>
    (fetchAndTransformDataForType d now env net host category).map (fun l => ([], l))

/-- A `FeedItem` with its `pubDate` removed, to state which parts of the
parser's output are independent of the invocation clock. -/
structure FeedItemND where
  title : List Char
  link : List Char
  description : List Char
  author : List Char
deriving DecidableEq, Repr

/-- Forget the publish timestamp. -/
def stripDate (it : FeedItem) : FeedItemND :=
  ⟨it.title, it.link, it.description, it.author⟩

/-- State of a Folo page loop before page `k` (the `publishedAfter`
variable) together with everything accumulated from pages `0..k-1`,
obtained by running the loop body `k` times from the initial state. -/
def foloIter (net : FoloNet) (d : DateParse) (now : Int) (fd : Option Int)
    (cfg : FoloCfg) (listId : List Char) :
    Nat → Option (List Char) × List FoloRawItem
  | 0 => (none, [])
  | k + 1 =>
    let st := foloIter net d now fd cfg listId k
    match net (reqOf listId st.1) with
    | .okResp (some (e :: es)) =>
      (some ((es.getLastD e).entries.publishedAt),
        st.2 ++ foloPageItems d now fd cfg (e :: es))
    | _ => st

deriving instance DecidableEq for Except

/-- Date oracle that parses nothing: every string is an Invalid Date (only
consulted on strings no real engine parses either). -/
def dNone : DateParse := fun _ => none

/-- Date oracle for the concrete test feeds: the two date strings they use
parse to fixed timestamps, everything else is an Invalid Date. -/
def dTest : DateParse := fun s =>
  if s = "D1".data then some 1000 else if s = "D2".data then some 2000 else none

/-- Environment with no variable set. -/
def envNone : Env := fun _ => none

/-- RSS network oracle where every request is a transport error. -/
def rssNetNone : RSSNet := fun _ => .error ()

/-- Folo network oracle where every request is a transport error. -/
def foloNetNone : FoloNet := fun _ => .transportError

/-- Host oracle where `new URL` always throws. -/
def hostNone : HostOracle := fun _ => none

/-- Environment for the three-URL RSS scenario: one failing URL between two
good ones. -/
def env8 : Env := fun k =>
  if k = "RSS_GENERAL_NEWS".data then some "ua,ub,uc".data else none

/-- Feed body served for `ua` in the three-URL scenario. -/
def bodyA : List Char :=
  "<rss><title>FA</title><item><title>A1</title><link>LA1</link><pubDate>D1</pubDate></item></rss>".data

/-- Feed body served for `uc` in the three-URL scenario. -/
def bodyC : List Char :=
  "<rss><title>FC</title><item><title>C1</title><link>LC1</link><pubDate>D2</pubDate></item></rss>".data

/-- Network for the three-URL scenario: `ub` answers HTTP 500. -/
def net8 : RSSNet := fun u =>
  if u = "ua".data then .ok ⟨true, bodyA⟩
  else if u = "ub".data then .ok ⟨false, []⟩
  else if u = "uc".data then .ok ⟨true, bodyC⟩
  else .error ()

/-- Environment for the sorted-output scenario: one configured URL. -/
def env9 : Env := fun k =>
  if k = "RSS_GENERAL_NEWS".data then some "u9".data else none

/-- Feed body with two items bearing distinct parseable dates. -/
def body9 : List Char :=
  ("<rss><title>F9</title><item><title>N1</title><link>L91</link><pubDate>D1</pubDate></item>" ++
   "<item><title>N2</title><link>L92</link><pubDate>D2</pubDate></item></rss>").data

/-- Network for the sorted-output scenario. -/
def net9 : RSSNet := fun u =>
  if u = "u9".data then .ok ⟨true, body9⟩ else .error ()

/-- Environment for the two-page Folo scenario: only the news list id set. -/
def env7 : Env := fun k =>
  if k = "REALESTATE_NEWS_LIST_ID".data then some "L7".data else none

/-- A concrete Folo entry published at `D1`. -/
def entry7 : FoloEntry :=
  ⟨⟨"id7".data, "u7".data, "t7".data, "c7".data, "D1".data, "a7".data⟩,
    ⟨"f7".data, "fu7".data⟩⟩

/-- Folo network for the two-page scenario: the first page (no
`publishedAfter`) has one entry, every later page is empty. -/
def net7 : FoloNet := fun req =>
  if req.publishedAfter = none then .okResp (some [entry7]) else .okResp (some [])

/-- A feed with one malformed block (no link) and one fully well-formed
block, exercising both the skip path and the emit path. -/
def xmlW : List Char :=
  ("<item><title>T</title></item>" ++
   "<item><title>A</title><link>L</link><pubDate>D1</pubDate></item>").data

/-- An `<item>` inner block with title and link but no date field. -/
def blkW : List Char := "<title>A</title><link>L</link>".data

theorem mem_of_mem_insertDesc {key : α → Int} {x z : α} :
    ∀ {l : List α}, z ∈ insertDesc key x l → z = x ∨ z ∈ l := by
  intro l
  induction l with
  | nil =>
    intro h
    simp only [insertDesc, List.mem_singleton] at h
    exact Or.inl h
  | cons y ys ih =>
    intro h
    simp only [insertDesc] at h
    split at h
    · rcases List.mem_cons.mp h with h1 | h1
      · exact Or.inl h1
      · exact Or.inr h1
    · rcases List.mem_cons.mp h with h1 | h1
      · exact Or.inr (List.mem_cons.mpr (Or.inl h1))
      · rcases ih h1 with h2 | h2
        · exact Or.inl h2
        · exact Or.inr (List.mem_cons.mpr (Or.inr h2))

theorem pairwise_insertDesc (key : α → Int) (x : α) :
    ∀ (l : List α), l.Pairwise (fun a b => key b ≤ key a) →
    (insertDesc key x l).Pairwise (fun a b => key b ≤ key a) := by
  intro l
  induction l with
  | nil => intro _; simp [insertDesc]
  | cons y ys ih =>
    intro h
    rcases List.pairwise_cons.mp h with ⟨hy, hys⟩
    simp only [insertDesc]
    split
    next hle =>
      refine List.pairwise_cons.mpr ⟨?_, h⟩
      intro z hz
      rcases List.mem_cons.mp hz with rfl | hz2
      · exact hle
      · exact (hy z hz2).trans hle
    next hgt =>
      push_neg at hgt
      refine List.pairwise_cons.mpr ⟨?_, ih hys⟩
      intro z hz
      rcases mem_of_mem_insertDesc hz with rfl | hz2
      · exact le_of_lt hgt
      · exact hy z hz2

theorem perm_insertDesc (key : α → Int) (x : α) :
    ∀ (l : List α), (insertDesc key x l).Perm (x :: l) := by
  intro l
  induction l with
  | nil => simp [insertDesc]
  | cons y ys ih =>
    simp only [insertDesc]
    split
    · exact List.Perm.refl _
    · exact (ih.cons y).trans (List.Perm.swap x y ys)

theorem perm_jsSortByKeyDesc (key : α → Int) :
    ∀ (l : List α), (jsSortByKeyDesc key l).Perm l := by
  intro l
  induction l with
  | nil => simp [jsSortByKeyDesc]
  | cons x xs ih =>
    simp only [jsSortByKeyDesc]
    exact (perm_insertDesc key x (jsSortByKeyDesc key xs)).trans (ih.cons x)

theorem pairwise_jsSortByKeyDesc (key : α → Int) :
    ∀ (l : List α), (jsSortByKeyDesc key l).Pairwise (fun a b => key b ≤ key a) := by
  intro l
  induction l with
  | nil => simp [jsSortByKeyDesc]
  | cons x xs ih =>
    simp only [jsSortByKeyDesc]
    exact pairwise_insertDesc key x _ ih

theorem strictDesc_jsSortByKeyDesc (key : α → Int) (l : List α)
    (hdist : l.Pairwise (fun a b => key a ≠ key b)) :
    (jsSortByKeyDesc key l).Pairwise (fun a b => key b < key a) := by
  have hp := perm_jsSortByKeyDesc key l
  have hd : (jsSortByKeyDesc key l).Pairwise (fun a b => key a ≠ key b) :=
    (hp.pairwise_iff (fun hab => Ne.symm hab)).mpr hdist
  exact ((pairwise_jsSortByKeyDesc key l).and hd).imp
    (fun hab => lt_of_le_of_ne hab.1 (Ne.symm hab.2))

theorem mem_jsSortByKeyDesc {key : α → Int} {z : α} {l : List α} :
    z ∈ jsSortByKeyDesc key l ↔ z ∈ l :=
  (perm_jsSortByKeyDesc key l).mem_iff

theorem rssCollect_eq_join (d : DateParse) (now : Int) (fd : Option Int)
    (net : RSSNet) (host : HostOracle) (urls : List (List Char)) :
    rssCollect d now fd net host urls =
      (urls.map (rssPerUrl d now fd net host)).flatten := by
  have aux : ∀ (us : List (List Char)) (acc : List RSSItemT),
      us.foldl (fun a u => a ++ rssPerUrl d now fd net host u) acc =
        acc ++ (us.map (rssPerUrl d now fd net host)).flatten := by
    intro us
    induction us with
    | nil => intro acc; simp
    | cons u rest ih => intro acc; simp [List.foldl_cons, ih]
  simpa using aux urls []

theorem pageGoodB_eq_true_iff (o : PageOutcome) :
    pageGoodB o = true ↔ ∃ e es, o = .okResp (some (e :: es)) := by
  cases o with
  | transportError => simp [pageGoodB]
  | httpError => simp [pageGoodB]
  | okResp od =>
    cases od with
    | none => simp [pageGoodB]
    | some l =>
      cases l with
      | nil => simp [pageGoodB]
      | cons e es => simp [pageGoodB]

theorem foloLoop_stop (net : FoloNet) (d : DateParse) (now : Int)
    (fd : Option Int) (cfg : FoloCfg) (lid : List Char) (n : Nat)
    (pa : Option (List Char)) (acc : List FoloRawItem) (tr : List FoloReq)
    (h : pageGoodB (net (reqOf lid pa)) = false) :
    foloLoop net d now fd cfg lid (n + 1) pa acc tr = (tr ++ [reqOf lid pa], acc) := by
  cases hnet : net (reqOf lid pa) with
  | transportError => simp [foloLoop, hnet]
  | httpError => simp [foloLoop, hnet]
  | okResp od =>
    cases od with
    | none => simp [foloLoop, hnet]
    | some l =>
      cases l with
      | nil => simp [foloLoop, hnet]
      | cons e es => rw [hnet] at h; simp [pageGoodB] at h

theorem foloLoop_step (net : FoloNet) (d : DateParse) (now : Int)
    (fd : Option Int) (cfg : FoloCfg) (lid : List Char) (n : Nat)
    (pa : Option (List Char)) (acc : List FoloRawItem) (tr : List FoloReq)
    (e : FoloEntry) (es : List FoloEntry)
    (h : net (reqOf lid pa) = .okResp (some (e :: es))) :
    foloLoop net d now fd cfg lid (n + 1) pa acc tr =
      foloLoop net d now fd cfg lid n
        (some ((es.getLastD e).entries.publishedAt))
        (acc ++ foloPageItems d now fd cfg (e :: es))
        (tr ++ [reqOf lid pa]) := by
  simp [foloLoop, h]

theorem foloIter_step (net : FoloNet) (d : DateParse) (now : Int)
    (fd : Option Int) (cfg : FoloCfg) (lid : List Char) (k : Nat)
    (e : FoloEntry) (es : List FoloEntry)
    (h : net (reqOf lid (foloIter net d now fd cfg lid k).1) = .okResp (some (e :: es))) :
    foloIter net d now fd cfg lid (k + 1) =
      (some ((es.getLastD e).entries.publishedAt),
        (foloIter net d now fd cfg lid k).2 ++ foloPageItems d now fd cfg (e :: es)) := by
  simp [foloIter, h]

theorem foloLoop_advance (net : FoloNet) (d : DateParse) (now : Int)
    (fd : Option Int) (cfg : FoloCfg) (lid : List Char) :
    ∀ (k n : Nat),
      (∀ j < k, pageGoodB (net (reqOf lid (foloIter net d now fd cfg lid j).1)) = true) →
      foloLoop net d now fd cfg lid (k + n) none [] [] =
        foloLoop net d now fd cfg lid n
          (foloIter net d now fd cfg lid k).1
          (foloIter net d now fd cfg lid k).2
          ((List.range k).map (fun j => reqOf lid (foloIter net d now fd cfg lid j).1)) := by
  intro k
  induction k with
  | zero => intro n _; simp [foloIter]
  | succ k ih =>
    intro n hgood
    have hk : pageGoodB (net (reqOf lid (foloIter net d now fd cfg lid k).1)) = true :=
      hgood k (Nat.lt_succ_self k)
    obtain ⟨e, es, hnet⟩ := (pageGoodB_eq_true_iff _).mp hk
    have h1 : k + 1 + n = k + (n + 1) := by omega
    rw [h1, ih (n + 1) (fun j hj => hgood j (Nat.lt_succ_of_lt hj))]
    rw [foloLoop_step net d now fd cfg lid n _ _ _ e es hnet]
    rw [foloIter_step net d now fd cfg lid k e es hnet]
    simp [List.range_succ]

theorem exceptFilterMap_ok_of (f : α → Except Unit (Option β)) :
    ∀ (l : List α), (∀ a ∈ l, ∃ o, f a = .ok o) →
    ∃ r, exceptFilterMap f l = .ok r := by
  intro l
  induction l with
  | nil => intro _; exact ⟨[], rfl⟩
  | cons a as ih =>
    intro h
    obtain ⟨o, ho⟩ := h a (List.mem_cons_self a as)
    obtain ⟨r, hr⟩ := ih (fun x hx => h x (List.mem_cons_of_mem a hx))
    cases o with
    | none => exact ⟨r, by simp [exceptFilterMap, ho, hr]⟩
    | some b => exact ⟨b :: r, by simp [exceptFilterMap, ho, hr]⟩

theorem rssBlockItem_ok (d : DateParse) (now : Int) (b : List Char)
    (h : rssTitleOf b = [] ∨ rssLinkOf b = [] ∨ rssDateOf b = [] ∨
      (d (rssDateOf b)).isSome = true) :
    ∃ o, rssBlockItem d now b = .ok o := by
  unfold rssBlockItem
  by_cases hskip : (rssTitleOf b).isEmpty || (rssLinkOf b).isEmpty
  · exact ⟨none, by simp [hskip]⟩
  · simp only [hskip, Bool.false_eq_true, if_false]
    rcases h with h | h | h | h
    · exact absurd (by simp [h]) hskip
    · exact absurd (by simp [h]) hskip
    · refine ⟨some ⟨decodeHTMLEntities (rssTitleOf b), rssLinkOf b, rssDescOf b, now,
        decodeHTMLEntities (rssAuthorOf b)⟩, ?_⟩
      rw [if_pos (by simp [h])]
    · by_cases hde : (rssDateOf b).isEmpty
      · refine ⟨some ⟨decodeHTMLEntities (rssTitleOf b), rssLinkOf b, rssDescOf b, now,
          decodeHTMLEntities (rssAuthorOf b)⟩, ?_⟩
        rw [if_pos hde]
      · rw [if_neg hde]
        obtain ⟨t, ht⟩ := Option.isSome_iff_exists.mp h
        refine ⟨some ⟨decodeHTMLEntities (rssTitleOf b), rssLinkOf b, rssDescOf b, t,
          decodeHTMLEntities (rssAuthorOf b)⟩, ?_⟩
        rw [ht]

theorem atomBlockItem_ok (d : DateParse) (now : Int) (e : List Char)
    (h : atomTitleOf e = [] ∨ extractAtomLink e = [] ∨ atomDateOf e = [] ∨
      (d (atomDateOf e)).isSome = true) :
    ∃ o, atomBlockItem d now e = .ok o := by
  unfold atomBlockItem
  by_cases hskip : (atomTitleOf e).isEmpty || (extractAtomLink e).isEmpty
  · exact ⟨none, by simp [hskip]⟩
  · simp only [hskip, Bool.false_eq_true, if_false]
    rcases h with h | h | h | h
    · exact absurd (by simp [h]) hskip
    · exact absurd (by simp [h]) hskip
    · refine ⟨some ⟨decodeHTMLEntities (atomTitleOf e), extractAtomLink e, atomSummaryOf e,
        now, decodeHTMLEntities (jsOr (atomAuthorOf e) [])⟩, ?_⟩
      rw [if_pos (by simp [h])]
    · by_cases hde : (atomDateOf e).isEmpty
      · refine ⟨some ⟨decodeHTMLEntities (atomTitleOf e), extractAtomLink e, atomSummaryOf e,
          now, decodeHTMLEntities (jsOr (atomAuthorOf e) [])⟩, ?_⟩
        rw [if_pos hde]
      · rw [if_neg hde]
        obtain ⟨t, ht⟩ := Option.isSome_iff_exists.mp h
        refine ⟨some ⟨decodeHTMLEntities (atomTitleOf e), extractAtomLink e, atomSummaryOf e,
          t, decodeHTMLEntities (jsOr (atomAuthorOf e) [])⟩, ?_⟩
        rw [ht]

theorem parseRSSFeed_error_of_rss_error (d : DateParse) (now : Int) (xml : List Char)
    (h : exceptFilterMap (rssBlockItem d now) (rssBlocks xml) = .error ()) :
    parseRSSFeed d now xml = .error () := by
  unfold parseRSSFeed
  rw [h]

theorem parseRSSFeed_of_rss_nonempty (d : DateParse) (now : Int) (xml : List Char)
    (r : List FeedItem)
    (h : exceptFilterMap (rssBlockItem d now) (rssBlocks xml) = .ok r)
    (hne : r.isEmpty = false) :
    parseRSSFeed d now xml = .ok r := by
  unfold parseRSSFeed
  rw [h]
  show (if r.isEmpty = true then exceptFilterMap (atomBlockItem d now) (atomBlocks xml)
    else Except.ok r) = Except.ok r
  rw [hne]
  simp

theorem parseRSSFeed_atom_of_rss_empty (d : DateParse) (now : Int) (xml : List Char)
    (r : List FeedItem)
    (h : exceptFilterMap (rssBlockItem d now) (rssBlocks xml) = .ok r)
    (he : r.isEmpty = true) :
    parseRSSFeed d now xml = exceptFilterMap (atomBlockItem d now) (atomBlocks xml) := by
  unfold parseRSSFeed
  rw [h]
  show (if r.isEmpty = true then exceptFilterMap (atomBlockItem d now) (atomBlocks xml)
    else Except.ok r) = _
  rw [if_pos he]

theorem exceptFilterMap_rel (f g : α → Except Unit (Option β)) (R : β → β → Prop)
    (h : ∀ a, (f a = .error () ∧ g a = .error ()) ∨
      (f a = .ok none ∧ g a = .ok none) ∨
      (∃ x y, f a = .ok (some x) ∧ g a = .ok (some y) ∧ R x y)) :
    ∀ (l : List α),
      (exceptFilterMap f l = .error () ∧ exceptFilterMap g l = .error ()) ∨
      (∃ r₁ r₂, exceptFilterMap f l = .ok r₁ ∧ exceptFilterMap g l = .ok r₂ ∧
        List.Forall₂ R r₁ r₂) := by
  intro l
  induction l with
  | nil => exact Or.inr ⟨[], [], rfl, rfl, List.Forall₂.nil⟩
  | cons a as ih =>
    rcases h a with ⟨hf, hg⟩ | ⟨hf, hg⟩ | ⟨x, y, hf, hg, hxy⟩
    · exact Or.inl ⟨by simp [exceptFilterMap, hf], by simp [exceptFilterMap, hg]⟩
    · rcases ih with ⟨h1, h2⟩ | ⟨r₁, r₂, h1, h2, hr⟩
      · exact Or.inl ⟨by simp [exceptFilterMap, hf, h1], by simp [exceptFilterMap, hg, h2]⟩
      · exact Or.inr ⟨r₁, r₂, by simp [exceptFilterMap, hf, h1],
          by simp [exceptFilterMap, hg, h2], hr⟩
    · rcases ih with ⟨h1, h2⟩ | ⟨r₁, r₂, h1, h2, hr⟩
      · exact Or.inl ⟨by simp [exceptFilterMap, hf, h1], by simp [exceptFilterMap, hg, h2]⟩
      · exact Or.inr ⟨x :: r₁, y :: r₂, by simp [exceptFilterMap, hf, h1],
          by simp [exceptFilterMap, hg, h2], List.Forall₂.cons hxy hr⟩

theorem rssBlockItem_clock_rel (d : DateParse) (n₁ n₂ : Int) (b : List Char) :
    (rssBlockItem d n₁ b = .error () ∧ rssBlockItem d n₂ b = .error ()) ∨
    (rssBlockItem d n₁ b = .ok none ∧ rssBlockItem d n₂ b = .ok none) ∨
    (∃ x y, rssBlockItem d n₁ b = .ok (some x) ∧ rssBlockItem d n₂ b = .ok (some y) ∧
      (stripDate x = stripDate y ∧
        (x.pubDate = y.pubDate ∨ (x.pubDate = n₁ ∧ y.pubDate = n₂)))) := by
  by_cases hskip : ((rssTitleOf b).isEmpty || (rssLinkOf b).isEmpty) = true
  · exact Or.inr (Or.inl ⟨by simp [rssBlockItem, hskip], by simp [rssBlockItem, hskip]⟩)
  · by_cases hde : (rssDateOf b).isEmpty = true
    · refine Or.inr (Or.inr
        ⟨⟨decodeHTMLEntities (rssTitleOf b), rssLinkOf b, rssDescOf b, n₁,
            decodeHTMLEntities (rssAuthorOf b)⟩,
          ⟨decodeHTMLEntities (rssTitleOf b), rssLinkOf b, rssDescOf b, n₂,
            decodeHTMLEntities (rssAuthorOf b)⟩,
          ?_, ?_, rfl, Or.inr ⟨rfl, rfl⟩⟩)
      · simp [rssBlockItem, hskip, hde]
      · simp [rssBlockItem, hskip, hde]
    · cases hd : d (rssDateOf b) with
      | none =>
        exact Or.inl ⟨by simp [rssBlockItem, hskip, hde, hd],
          by simp [rssBlockItem, hskip, hde, hd]⟩
      | some t =>
        refine Or.inr (Or.inr
          ⟨⟨decodeHTMLEntities (rssTitleOf b), rssLinkOf b, rssDescOf b, t,
              decodeHTMLEntities (rssAuthorOf b)⟩,
            ⟨decodeHTMLEntities (rssTitleOf b), rssLinkOf b, rssDescOf b, t,
              decodeHTMLEntities (rssAuthorOf b)⟩,
            ?_, ?_, rfl, Or.inl rfl⟩)
        · simp [rssBlockItem, hskip, hde, hd]
        · simp [rssBlockItem, hskip, hde, hd]

theorem atomBlockItem_clock_rel (d : DateParse) (n₁ n₂ : Int) (e : List Char) :
    (atomBlockItem d n₁ e = .error () ∧ atomBlockItem d n₂ e = .error ()) ∨
    (atomBlockItem d n₁ e = .ok none ∧ atomBlockItem d n₂ e = .ok none) ∨
    (∃ x y, atomBlockItem d n₁ e = .ok (some x) ∧ atomBlockItem d n₂ e = .ok (some y) ∧
      (stripDate x = stripDate y ∧
        (x.pubDate = y.pubDate ∨ (x.pubDate = n₁ ∧ y.pubDate = n₂)))) := by
  by_cases hskip : ((atomTitleOf e).isEmpty || (extractAtomLink e).isEmpty) = true
  · exact Or.inr (Or.inl ⟨by simp [atomBlockItem, hskip], by simp [atomBlockItem, hskip]⟩)
  · by_cases hde : (atomDateOf e).isEmpty = true
    · refine Or.inr (Or.inr
        ⟨⟨decodeHTMLEntities (atomTitleOf e), extractAtomLink e, atomSummaryOf e, n₁,
            decodeHTMLEntities (jsOr (atomAuthorOf e) [])⟩,
          ⟨decodeHTMLEntities (atomTitleOf e), extractAtomLink e, atomSummaryOf e, n₂,
            decodeHTMLEntities (jsOr (atomAuthorOf e) [])⟩,
          ?_, ?_, rfl, Or.inr ⟨rfl, rfl⟩⟩)
      · simp [atomBlockItem, hskip, hde]
      · simp [atomBlockItem, hskip, hde]
    · cases hd : d (atomDateOf e) with
      | none =>
        exact Or.inl ⟨by simp [atomBlockItem, hskip, hde, hd],
          by simp [atomBlockItem, hskip, hde, hd]⟩
      | some t =>
        refine Or.inr (Or.inr
          ⟨⟨decodeHTMLEntities (atomTitleOf e), extractAtomLink e, atomSummaryOf e, t,
              decodeHTMLEntities (jsOr (atomAuthorOf e) [])⟩,
            ⟨decodeHTMLEntities (atomTitleOf e), extractAtomLink e, atomSummaryOf e, t,
              decodeHTMLEntities (jsOr (atomAuthorOf e) [])⟩,
            ?_, ?_, rfl, Or.inl rfl⟩)
        · simp [atomBlockItem, hskip, hde, hd]
        · simp [atomBlockItem, hskip, hde, hd]

/-- C5 counterexample: `constructor` is not a registered category, yet its
lookup on the registry object literal hits `Object.prototype` and is
truthy, so `fetchDataByCategory` takes the `fetchAndTransformDataForType`
path and returns the empty array with NO warning logged — refuting the
universal "after logging a warning". -/
theorem unknown_category_constructor_no_warning :
    dataSources "constructor".data = .protoFn ∧
    fetchDataByCategory dNone 0 envNone rssNetNone hostNone "constructor".data =
      .ok ([], []) :=
  ⟨by decide, by decide⟩

/-- C5 (amended): for every category key not present in the registry,
`fetchDataByCategory` returns the empty array and never raises an error;
the warning is logged exactly for keys that are also absent from
`Object.prototype`.  For an inherited prototype property name (such as
`constructor` or `toString`) the lookup is truthy, so no warning is logged
and the `!Array.isArray(sources)` guard inside
`fetchAndTransformDataForType` returns the empty array, logging
`console.error` instead. -/
theorem fetchDataByCategory_unknown_never_errors :
    (∀ (d : DateParse) (now : Int) (env : Env) (net : RSSNet) (host : HostOracle)
      (category : List Char), dataSources category = .absent →
      fetchDataByCategory d now env net host category =
        .ok ([warnUnknown category], [])) ∧
    (∀ (d : DateParse) (now : Int) (env : Env) (net : RSSNet) (host : HostOracle)
      (category : List Char), dataSources category = .protoFn →
      fetchDataByCategory d now env net host category = .ok ([], [])) := by
  constructor
  · intro d now env net host category h
    unfold fetchDataByCategory
    rw [h]
  · intro d now env net host category h
    unfold fetchDataByCategory fetchAndTransformDataForType
    rw [h]
    rfl

/-- Witness for C5 (amended): the absent key `bogus` gets the warning and
the empty array; the inherited key `toString` gets the empty array with no
warning; neither raises an error. -/
theorem fetchDataByCategory_unknown_never_errors_witness :
    (dataSources "bogus".data = .absent ∧
      fetchDataByCategory dNone 0 envNone rssNetNone hostNone "bogus".data =
        .ok ([warnUnknown "bogus".data], [])) ∧
    (dataSources "toString".data = .protoFn ∧
      fetchDataByCategory dNone 0 envNone rssNetNone hostNone "toString".data =
        .ok ([], [])) :=
  ⟨⟨by decide,
      fetchDataByCategory_unknown_never_errors.1 dNone 0 envNone rssNetNone hostNone
        "bogus".data (by decide)⟩,
    ⟨by decide,
      fetchDataByCategory_unknown_never_errors.2 dNone 0 envNone rssNetNone hostNone
        "toString".data (by decide)⟩⟩

/-- C6: with the adapter's configuration key unset (`undefined`), the RSS
adapter's fetch and a Folo adapter's fetch both return an empty-items
result immediately and issue no network request (empty request trace). -/
theorem fetch_skips_without_config :
    (∀ (d : DateParse) (now : Int) (env : Env) (net : RSSNet) (host : HostOracle)
      (cfg : RSSCfg), env cfg.envKeyUrl = none →
      rssFetch d now env net host cfg = ([], ⟨none, some []⟩)) ∧
    (∀ (cfg : FoloCfg) (env : Env) (net : FoloNet) (d : DateParse) (now : Int),
      env cfg.listKey = none →
      foloFetch cfg env net d now = ([], foloSkeleton cfg [])) := by
  constructor
  · intro d now env net host cfg h
    unfold rssFetch
    rw [h]
  · intro cfg env net d now h
    unfold foloFetch
    rw [h]

/-- Witness for C6 with every environment variable unset. -/
theorem fetch_skips_without_config_witness :
    envNone GeneralNewsSource.envKeyUrl = none ∧
    rssFetch dNone 0 envNone rssNetNone hostNone GeneralNewsSource = ([], ⟨none, some []⟩) ∧
    envNone RealEstateNewsCfg.listKey = none ∧
    foloFetch RealEstateNewsCfg envNone foloNetNone dNone 0 =
      ([], foloSkeleton RealEstateNewsCfg []) :=
  ⟨rfl,
    fetch_skips_without_config.1 dNone 0 envNone rssNetNone hostNone GeneralNewsSource rfl,
    rfl,
    fetch_skips_without_config.2 RealEstateNewsCfg envNone foloNetNone dNone 0 rfl⟩

/-- C10: every adapter's `transform` returns the empty array on a
null/undefined payload and on a payload without an `items` field, without
throwing and without fabricating items. -/
theorem transform_empty_on_missing_payload :
    (∀ (sourceName t : List Char), rssTransform sourceName none t = []) ∧
    (∀ (sourceName t : List Char) (tt : Option (List Char)),
      rssTransform sourceName (some ⟨tt, none⟩) t = []) ∧
    (∀ (cfg : FoloCfg) (t : List Char), foloTransform cfg none t = []) ∧
    (∀ (cfg : FoloCfg) (t v ti de la : List Char),
      foloTransform cfg (some ⟨v, ti, de, la, none⟩) t = []) :=
  ⟨fun _ _ => rfl, fun _ _ _ => rfl, fun _ _ => rfl, fun _ _ _ _ _ _ => rfl⟩

/-- C9: when the collected array carries pairwise-distinct (valid)
timestamps, the aggregator's per-category output and the RSS adapter's
fetch output are strictly decreasing — in particular non-increasing — in
`published_date`. -/
theorem outputs_sorted_desc :
    (∀ (d : DateParse) (now : Int) (env : Env) (net : RSSNet) (host : HostOracle)
      (cat : List Char) (entry : RegEntry) (out : List UnifiedItemR),
      dataSources cat = .entry entry →
      (aggCollect d now env net host cat entry).Pairwise
        (fun a b => a.published_date ≠ b.published_date) →
      fetchAndTransformDataForType d now env net host cat = .ok out →
      out.Pairwise (fun a b => b.published_date < a.published_date)) ∧
    (∀ (d : DateParse) (now : Int) (env : Env) (net : RSSNet) (host : HostOracle)
      (cfg : RSSCfg) (urls : List Char) (its : List RSSItemT),
      env cfg.envKeyUrl = some urls → urls.isEmpty = false →
      (rssCollect d now (rssFilterDays env) net host (urlListOf urls)).Pairwise
        (fun a b => a.pubDate ≠ b.pubDate) →
      (rssFetch d now env net host cfg).2.items = some its →
      its.Pairwise (fun a b => b.pubDate < a.pubDate)) := by
  constructor
  · intro d now env net host cat entry out hreg hdist hout
    unfold fetchAndTransformDataForType at hout
    rw [hreg] at hout
    have h2 : jsSortByKeyDesc (fun it => it.published_date)
        (aggCollect d now env net host cat entry) = out := by
      exact Except.ok.inj hout
    rw [← h2]
    exact strictDesc_jsSortByKeyDesc _ _ hdist
  · intro d now env net host cfg urls its henv hne hdist hits
    unfold rssFetch at hits
    rw [henv] at hits
    simp only [hne, Bool.false_eq_true, if_false] at hits
    have h2 : jsSortByKeyDesc (fun it => it.pubDate)
        (rssCollect d now (rssFilterDays env) net host (urlListOf urls)) = its := by
      exact Option.some.inj hits
    rw [← h2]
    exact strictDesc_jsSortByKeyDesc _ _ hdist

/-- Witness for C9: the `news` aggregation with nothing configured, and the
`general` RSS adapter serving two items with distinct dates. -/
theorem outputs_sorted_desc_witness :
    (dataSources "news".data = .entry ⟨"楼市资讯".data, [RealEstateNewsSource]⟩ ∧
      (aggCollect dNone 0 envNone rssNetNone hostNone "news".data
        ⟨"楼市资讯".data, [RealEstateNewsSource]⟩).Pairwise
        (fun a b => a.published_date ≠ b.published_date) ∧
      fetchAndTransformDataForType dNone 0 envNone rssNetNone hostNone "news".data = .ok [] ∧
      ([] : List UnifiedItemR).Pairwise
        (fun a b => b.published_date < a.published_date)) ∧
    (env9 GeneralNewsSource.envKeyUrl = some "u9".data ∧
      "u9".data.isEmpty = false ∧
      (rssCollect dTest 2000 (rssFilterDays env9) net9 hostNone
        (urlListOf "u9".data)).Pairwise (fun a b => a.pubDate ≠ b.pubDate) ∧
      ∃ its, (rssFetch dTest 2000 env9 net9 hostNone GeneralNewsSource).2.items = some its ∧
        its.Pairwise (fun a b => b.pubDate < a.pubDate)) :=
  ⟨⟨by decide, by decide, by decide,
      outputs_sorted_desc.1 dNone 0 envNone rssNetNone hostNone "news".data
        ⟨"楼市资讯".data, [RealEstateNewsSource]⟩ [] (by decide) (by decide) (by decide)⟩,
    ⟨by decide, by decide, by decide,
      ⟨_, rfl,
        outputs_sorted_desc.2 dTest 2000 env9 net9 hostNone GeneralNewsSource "u9".data _
          (by decide) (by decide) (by decide) rfl⟩⟩⟩

/-- C8: a non-success status or transport error on one of the configured
RSS URLs does not abort the adapter: every configured URL is requested, and
the surviving items of every URL appear in the adapter's final output. -/
theorem rss_failures_isolated :
    ∀ (d : DateParse) (now : Int) (env : Env) (net : RSSNet) (host : HostOracle)
      (cfg : RSSCfg) (urls : List Char),
      env cfg.envKeyUrl = some urls → urls.isEmpty = false →
      (rssFetch d now env net host cfg).1 = urlListOf urls ∧
      ∀ u ∈ urlListOf urls,
        ∀ it ∈ rssPerUrl d now (rssFilterDays env) net host u,
          ∃ its, (rssFetch d now env net host cfg).2.items = some its ∧ it ∈ its := by
  intro d now env net host cfg urls henv hne
  unfold rssFetch
  rw [henv]
  simp only [hne, Bool.false_eq_true, if_false]
  constructor
  · trivial
  · intro u hu it hit
    refine ⟨_, rfl, ?_⟩
    rw [mem_jsSortByKeyDesc, rssCollect_eq_join]
    simp only [List.mem_flatten, List.mem_map]
    exact ⟨_, ⟨u, hu, rfl⟩, hit⟩

/-- Witness for C8: three configured URLs with the middle one answering
HTTP 500; the adapter requests all three and the two good feeds' items are
in the output. -/
theorem rss_failures_isolated_witness :
    env8 GeneralNewsSource.envKeyUrl = some "ua,ub,uc".data ∧
    "ua,ub,uc".data.isEmpty = false ∧
    ((rssFetch dTest 1000 env8 net8 hostNone GeneralNewsSource).1 =
        urlListOf "ua,ub,uc".data ∧
      ∀ u ∈ urlListOf "ua,ub,uc".data,
        ∀ it ∈ rssPerUrl dTest 1000 (rssFilterDays env8) net8 hostNone u,
          ∃ its, (rssFetch dTest 1000 env8 net8 hostNone GeneralNewsSource).2.items =
              some its ∧ it ∈ its) :=
  ⟨by decide, by decide,
    rss_failures_isolated dTest 1000 env8 net8 hostNone GeneralNewsSource
      "ua,ub,uc".data (by decide) (by decide)⟩

/-- C7: if the pages before `k` are good and page `k`'s call fails (non-OK
status or transport error) or yields zero results, a Folo adapter's fetch
stops after requesting pages `0..k` and still returns exactly the items
collected from the earlier pages. -/
theorem folo_pagination_stops_with_partial_results :
    ∀ (cfg : FoloCfg) (env : Env) (net : FoloNet) (d : DateParse) (now : Int)
      (lid : List Char) (k : Nat),
      env cfg.listKey = some lid → lid.isEmpty = false →
      k < foloPages cfg env →
      (∀ j < k, pageGoodB (net (reqOf lid
        (foloIter net d now (foloFilterDays env) cfg lid j).1)) = true) →
      pageGoodB (net (reqOf lid
        (foloIter net d now (foloFilterDays env) cfg lid k).1)) = false →
      foloFetch cfg env net d now =
        ((List.range (k + 1)).map (fun j => reqOf lid
            (foloIter net d now (foloFilterDays env) cfg lid j).1),
          foloSkeleton cfg (foloIter net d now (foloFilterDays env) cfg lid k).2) := by
  intro cfg env net d now lid k henv hne hk hgood hbad
  unfold foloFetch
  rw [henv]
  simp only [hne, Bool.false_eq_true, if_false]
  obtain ⟨m, hm⟩ : ∃ m, foloPages cfg env = k + (m + 1) :=
    ⟨foloPages cfg env - k - 1, by omega⟩
  rw [hm, foloLoop_advance net d now (foloFilterDays env) cfg lid k (m + 1) hgood,
    foloLoop_stop net d now (foloFilterDays env) cfg lid m _ _ _ hbad]
  simp [List.range_succ]

/-- Witness for C7: the news adapter fetching two pages where the first page
has one entry and the second is empty — pagination stops after page two with
the page-one item retained. -/
theorem folo_pagination_stops_with_partial_results_witness :
    env7 RealEstateNewsCfg.listKey = some "L7".data ∧
    "L7".data.isEmpty = false ∧
    1 < foloPages RealEstateNewsCfg env7 ∧
    (∀ j < 1, pageGoodB (net7 (reqOf "L7".data
      (foloIter net7 dTest 1000 (foloFilterDays env7) RealEstateNewsCfg "L7".data j).1)) = true) ∧
    pageGoodB (net7 (reqOf "L7".data
      (foloIter net7 dTest 1000 (foloFilterDays env7) RealEstateNewsCfg "L7".data 1).1)) = false ∧
    foloFetch RealEstateNewsCfg env7 net7 dTest 1000 =
      ((List.range 2).map (fun j => reqOf "L7".data
          (foloIter net7 dTest 1000 (foloFilterDays env7) RealEstateNewsCfg "L7".data j).1),
        foloSkeleton RealEstateNewsCfg
          (foloIter net7 dTest 1000 (foloFilterDays env7) RealEstateNewsCfg "L7".data 1).2) :=
  ⟨by decide, by decide, by decide, by decide, by decide,
    folo_pagination_stops_with_partial_results RealEstateNewsCfg env7 net7 dTest 1000
      "L7".data 1 (by decide) (by decide) (by decide) (by decide) (by decide)⟩

/-- C1 counterexample: an `<item>` with title and link whose `pubDate` is
present but unparseable makes `parseRSSFeed` throw (the `RangeError` of
`toISOString` on an Invalid Date), refuting "never throws" — the malformed
date aborts the parse instead of the block being skipped. -/
theorem parseRSSFeed_throws_on_unparseable_date :
    parseRSSFeed dNone 0
      "<item><title>B1</title><link>LB1</link><pubDate>zzz</pubDate></item>".data =
      .error () := by decide

/-- C1 (amended): `parseRSSFeed` returns a list of items and never throws
provided every scanned block's date field is absent or parseable; blocks
missing a title or a link are skipped without error.  (A present but
unparseable date field in a block carrying title and link throws a
`RangeError` that propagates out of the parser.) -/
theorem parseRSSFeed_ok_of_dates_parseable :
    ∀ (d : DateParse) (now : Int) (xml : List Char),
      (∀ b ∈ rssBlocks xml, rssTitleOf b = [] ∨ rssLinkOf b = [] ∨
        rssDateOf b = [] ∨ (d (rssDateOf b)).isSome = true) →
      (∀ e ∈ atomBlocks xml, atomTitleOf e = [] ∨ extractAtomLink e = [] ∨
        atomDateOf e = [] ∨ (d (atomDateOf e)).isSome = true) →
      ∃ l, parseRSSFeed d now xml = .ok l := by
  intro d now xml h1 h2
  obtain ⟨r, hr⟩ := exceptFilterMap_ok_of (rssBlockItem d now) (rssBlocks xml)
    (fun b hb => rssBlockItem_ok d now b (h1 b hb))
  unfold parseRSSFeed
  rw [hr]
  show ∃ l, (if r.isEmpty = true then
    exceptFilterMap (atomBlockItem d now) (atomBlocks xml) else Except.ok r) = Except.ok l
  by_cases hre : r.isEmpty = true
  · rw [if_pos hre]
    exact exceptFilterMap_ok_of (atomBlockItem d now) (atomBlocks xml)
      (fun e he => atomBlockItem_ok d now e (h2 e he))
  · rw [if_neg hre]
    exact ⟨r, rfl⟩

/-- Witness for C1 (amended): a feed with a skipped block (no link) and a
well-formed block whose date parses. -/
theorem parseRSSFeed_ok_of_dates_parseable_witness :
    (∀ b ∈ rssBlocks xmlW, rssTitleOf b = [] ∨ rssLinkOf b = [] ∨
      rssDateOf b = [] ∨ ((dTest (rssDateOf b)).isSome = true)) ∧
    (∀ e ∈ atomBlocks xmlW, atomTitleOf e = [] ∨ extractAtomLink e = [] ∨
      atomDateOf e = [] ∨ ((dTest (atomDateOf e)).isSome = true)) ∧
    ∃ l, parseRSSFeed dTest 0 xmlW = .ok l :=
  ⟨by decide, by decide,
    parseRSSFeed_ok_of_dates_parseable dTest 0 xmlW (by decide) (by decide)⟩

/-- C2 counterexample: an Atom entry whose `published` field is present but
unparseable is not emitted with the current time substituted — the parse
throws instead. -/
theorem unparseable_date_not_substituted :
    atomDateOf "<title>X</title><link href=\"LX\"/><published>whenever</published>".data ≠ [] ∧
    parseRSSFeed dNone 7
      "<entry><title>X</title><link href=\"LX\"/><published>whenever</published></entry>".data =
      .error () :=
  ⟨by decide, by decide⟩

/-- C2 (amended): the current time is substituted (and the item emitted)
exactly when the date field is absent: a block with title and link and no
date field yields an item stamped with `now`.  A present but unparseable
date throws instead of being replaced (see the counterexample). -/
theorem missing_date_substitutes_now :
    (∀ (d : DateParse) (now : Int) (b : List Char),
      rssTitleOf b ≠ [] → rssLinkOf b ≠ [] → rssDateOf b = [] →
      ∃ it, rssBlockItem d now b = .ok (some it) ∧ it.pubDate = now) ∧
    (∀ (d : DateParse) (now : Int) (e : List Char),
      atomTitleOf e ≠ [] → extractAtomLink e ≠ [] → atomDateOf e = [] →
      ∃ it, atomBlockItem d now e = .ok (some it) ∧ it.pubDate = now) := by
  constructor
  · intro d now b ht hl hd
    unfold rssBlockItem
    have hcond : ((rssTitleOf b).isEmpty || (rssLinkOf b).isEmpty) = false := by
      simp [List.isEmpty_iff, ht, hl]
    simp only [hcond, Bool.false_eq_true, if_false]
    rw [if_pos (by simp [hd])]
    exact ⟨⟨decodeHTMLEntities (rssTitleOf b), rssLinkOf b, rssDescOf b, now,
      decodeHTMLEntities (rssAuthorOf b)⟩, rfl, rfl⟩
  · intro d now e ht hl hd
    unfold atomBlockItem
    have hcond : ((atomTitleOf e).isEmpty || (extractAtomLink e).isEmpty) = false := by
      simp [List.isEmpty_iff, ht, hl]
    simp only [hcond, Bool.false_eq_true, if_false]
    rw [if_pos (by simp [hd])]
    exact ⟨⟨decodeHTMLEntities (atomTitleOf e), extractAtomLink e, atomSummaryOf e, now,
      decodeHTMLEntities (jsOr (atomAuthorOf e) [])⟩, rfl, rfl⟩

/-- Witness for C2 (amended): a block with title and link and no date field
is emitted with `pubDate = 42`, the invocation's current time. -/
theorem missing_date_substitutes_now_witness :
    rssTitleOf blkW ≠ [] ∧ rssLinkOf blkW ≠ [] ∧ rssDateOf blkW = [] ∧
    ∃ it, rssBlockItem dNone 42 blkW = .ok (some it) ∧ it.pubDate = 42 :=
  ⟨by decide, by decide, by decide,
    missing_date_substitutes_now.1 dNone 42 blkW (by decide) (by decide) (by decide)⟩

/-- C3 counterexample: a block carrying a title but no link is not emitted —
`parseRSSFeed` yields the empty list on a feed whose only item has a title
and no link, refuting "a title or a link suffices". -/
theorem title_without_link_not_emitted :
    rssTitleOf "<title>C3</title>".data ≠ [] ∧
    rssLinkOf "<title>C3</title>".data = [] ∧
    parseRSSFeed dNone 0 "<item><title>C3</title></item>".data = .ok [] :=
  ⟨by decide, by decide, by decide⟩

/-- C3 (amended): a block is skipped exactly when it is missing its title
OR missing its link; only blocks carrying both a title and a link are
emitted. -/
theorem skip_iff_missing_title_or_link :
    ∀ (d : DateParse) (now : Int) (b : List Char),
      (rssBlockItem d now b = .ok none ↔ rssTitleOf b = [] ∨ rssLinkOf b = []) ∧
      (atomBlockItem d now b = .ok none ↔ atomTitleOf b = [] ∨ extractAtomLink b = []) := by
  intro d now b
  constructor
  · unfold rssBlockItem
    by_cases hc : ((rssTitleOf b).isEmpty || (rssLinkOf b).isEmpty) = true
    · simp only [hc, if_true]
      constructor
      · intro _
        simpa [List.isEmpty_iff] using hc
      · intro _
        trivial
    · simp only [hc, Bool.false_eq_true, if_false]
      constructor
      · intro h
        exfalso
        cases hdd : (if (rssDateOf b).isEmpty = true then some now else d (rssDateOf b)) with
        | none => rw [hdd] at h; exact Except.noConfusion h
        | some t => rw [hdd] at h; simp at h
      · intro h
        exfalso
        rw [Bool.or_eq_true_iff] at hc
        push_neg at hc
        rcases h with h | h
        · exact hc.1 (by simp [h])
        · exact hc.2 (by simp [h])
  · unfold atomBlockItem
    by_cases hc : ((atomTitleOf b).isEmpty || (extractAtomLink b).isEmpty) = true
    · simp only [hc, if_true]
      constructor
      · intro _
        simpa [List.isEmpty_iff] using hc
      · intro _
        trivial
    · simp only [hc, Bool.false_eq_true, if_false]
      constructor
      · intro h
        exfalso
        cases hdd : (if (atomDateOf b).isEmpty = true then some now else d (atomDateOf b)) with
        | none => rw [hdd] at h; exact Except.noConfusion h
        | some t => rw [hdd] at h; simp at h
      · intro h
        exfalso
        rw [Bool.or_eq_true_iff] at hc
        push_neg at hc
        rcases h with h | h
        · exact hc.1 (by simp [h])
        · exact hc.2 (by simp [h])

/-- C4 counterexample: two invocations of `parseRSSFeed` on the same XML at
different current times yield different outputs — an item without a date
field is stamped with each invocation's clock. -/
theorem parse_differs_across_clock :
    parseRSSFeed dNone 0 "<item><title>A</title><link>L</link></item>".data ≠
      parseRSSFeed dNone 1 "<item><title>A</title><link>L</link></item>".data := by
  decide

/-- C4 (amended): parsing is a pure function of the XML, the date oracle
and the current time, so two invocations observing the same clock yield
identical output.  Across different clocks the two runs throw together,
and otherwise produce lists of the same length whose corresponding items
have identical titles, links, descriptions and authors, and identical
publish timestamps except that an item whose date field is absent carries
each invocation's own clock (`n₁` resp. `n₂`). -/
theorem parse_deterministic_modulo_clock :
    ∀ (d : DateParse) (n₁ n₂ : Int) (xml : List Char),
      (parseRSSFeed d n₁ xml = .error () ↔ parseRSSFeed d n₂ xml = .error ()) ∧
      (∀ l₁ l₂, parseRSSFeed d n₁ xml = .ok l₁ → parseRSSFeed d n₂ xml = .ok l₂ →
        List.Forall₂ (fun a b => stripDate a = stripDate b ∧
          (a.pubDate = b.pubDate ∨ (a.pubDate = n₁ ∧ b.pubDate = n₂))) l₁ l₂) := by
  intro d n₁ n₂ xml
  rcases exceptFilterMap_rel (rssBlockItem d n₁) (rssBlockItem d n₂)
      (fun a b => stripDate a = stripDate b ∧
        (a.pubDate = b.pubDate ∨ (a.pubDate = n₁ ∧ b.pubDate = n₂)))
      (fun b => rssBlockItem_clock_rel d n₁ n₂ b) (rssBlocks xml) with
    ⟨h1, h2⟩ | ⟨r₁, r₂, h1, h2, hfa⟩
  · rw [parseRSSFeed_error_of_rss_error d n₁ xml h1,
      parseRSSFeed_error_of_rss_error d n₂ xml h2]
    exact ⟨Iff.rfl, fun l₁ l₂ hl₁ _ => absurd hl₁ (by simp)⟩
  · have hemp : r₁.isEmpty = r₂.isEmpty := by
      have hlen := List.Forall₂.length_eq hfa
      cases r₁ <;> cases r₂ <;> simp_all
    by_cases he : r₁.isEmpty = true
    · have he₂ : r₂.isEmpty = true := by rw [← hemp]; exact he
      rw [parseRSSFeed_atom_of_rss_empty d n₁ xml r₁ h1 he,
        parseRSSFeed_atom_of_rss_empty d n₂ xml r₂ h2 he₂]
      rcases exceptFilterMap_rel (atomBlockItem d n₁) (atomBlockItem d n₂)
          (fun a b => stripDate a = stripDate b ∧
            (a.pubDate = b.pubDate ∨ (a.pubDate = n₁ ∧ b.pubDate = n₂)))
          (fun e => atomBlockItem_clock_rel d n₁ n₂ e) (atomBlocks xml) with
        ⟨a1, a2⟩ | ⟨s₁, s₂, a1, a2, hfa2⟩
      · rw [a1, a2]
        exact ⟨Iff.rfl, fun l₁ l₂ hl₁ _ => absurd hl₁ (by simp)⟩
      · rw [a1, a2]
        refine ⟨⟨fun h => absurd h (by simp), fun h => absurd h (by simp)⟩, ?_⟩
        intro l₁ l₂ hl₁ hl₂
        rw [← Except.ok.inj hl₁, ← Except.ok.inj hl₂]
        exact hfa2
    · have hne₁ : r₁.isEmpty = false := by
        cases hh : r₁.isEmpty
        · rfl
        · exact absurd hh he
      have hne₂ : r₂.isEmpty = false := by rw [← hemp]; exact hne₁
      rw [parseRSSFeed_of_rss_nonempty d n₁ xml r₁ h1 hne₁,
        parseRSSFeed_of_rss_nonempty d n₂ xml r₂ h2 hne₂]
      refine ⟨⟨fun h => absurd h (by simp), fun h => absurd h (by simp)⟩, ?_⟩
      intro l₁ l₂ hl₁ hl₂
      rw [← Except.ok.inj hl₁, ← Except.ok.inj hl₂]
      exact hfa

end RSSDaily
